import Mathlib

/-!
# Shallow embedding of the MP3TagEditor core (C sources) in Lean 4

Files modelled: `error_handling.c` (extension validator), `id3_reader.c`
(`read_id3_tags`), `id3_writer.c` (`write_frame`, `write_id3_tags`,
`edit_tag`), `id3_utils.c` (`TagData`, `create_tag_data`).

Conventions of the embedding:
* a file's contents is a `List Nat` of byte values;
* a C string (`char *`) is a `List Nat` of its bytes before the NUL
  terminator (hence, by construction, free of zero bytes);
* file names are `List Char`;
* fallible operations return `Except`; operating-system level failures
  (fopen/remove/rename), which are nondeterministic environment events,
  are modelled as succeeding, so the only error paths are the ones the
  code decides from its inputs.
-/

namespace MP3Tag

/-- In-memory tag record, from `TagData` in `id3_utils.h`: seven optional
C strings, all `NULL` (absent) after `create_tag_data`. -/
structure TagData where
  version : Option (List Nat)
  title : Option (List Nat)
  artist : Option (List Nat)
  album : Option (List Nat)
  year : Option (List Nat)
  comment : Option (List Nat)
  genre : Option (List Nat)
deriving DecidableEq, Repr

/-- `create_tag_data` from `id3_utils.c`: all fields initialised to `NULL`. -/
def create_tag_data : TagData :=
  { version := none, title := none, artist := none, album := none,
    year := none, comment := none, genre := none }

/-- Suffix of the list starting at the last occurrence of `c`, i.e. the
pointer returned by C `strrchr` viewed as the remaining string;
`none` when `c` does not occur. -/
def strrchrSuffix (c : Char) : List Char → Option (List Char)
  | [] => none
  | x :: xs =>
    match strrchrSuffix c xs with
    | some r => some r
    | none => if x = c then some (x :: xs) else none

/-- `check_id3_tag_presence` from `error_handling.c`: find the last `'.'`
with `strrchr` and compare the suffix from there with `".mp3"`. -/
def check_id3_tag_presence (filename : List Char) : Bool :=
  match strrchrSuffix '.' filename with
  | some ext => ext = ".mp3".toList
  | none => false

/-- Modelled from the spec: "Returns true iff the extension
(case-sensitive, exact suffix `\".mp3\"`) matches" — a plain
ends-with-`".mp3"` test, for comparison with `check_id3_tag_presence`. -/
def endsWithMp3 (filename : List Char) : Bool :=
  decide (4 ≤ filename.length) &&
    decide (filename.drop (filename.length - 4) = ".mp3".toList)

/-- Byte at index `i`, 0 when out of range (reads in the C code are always
guarded by length checks, so the default is never observed). -/
def byteAt (l : List Nat) (i : Nat) : Nat := l.getD i 0

/-- The bytes of a C string buffer up to (excluding) the first NUL:
what `strcmp` compares and `strdup` copies. -/
def cstr (l : List Nat) : List Nat := l.takeWhile (fun b => b != 0)

/-- Sync-safe tag size from header bytes 6–9, as computed in
`read_id3_tags`: `((h6&0x7F)<<21)|((h7&0x7F)<<14)|((h8&0x7F)<<7)|(h9&0x7F)`. -/
def syncSafeSize (b6 b7 b8 b9 : Nat) : Nat :=
  ((b6 &&& 127) <<< 21) ||| ((b7 &&& 127) <<< 14) |||
    ((b8 &&& 127) <<< 7) ||| (b9 &&& 127)

/-- Big-endian 32-bit frame size from the 4 size bytes, as computed in
`read_id3_tags`: `(s0<<24)|(s1<<16)|(s2<<8)|s3`. -/
def frameSizeOf (s : List Nat) : Nat :=
  (byteAt s 0 <<< 24) ||| (byteAt s 1 <<< 16) |||
    (byteAt s 2 <<< 8) ||| byteAt s 3

/-- Version string bytes, from `snprintf(verStr, 10, "ID3v2.%d.%d",
header[3], header[4])` in `read_id3_tags`: `"ID3v2."`, the decimal digits
of the two version bytes separated by `'.'`, truncated to 9 characters by
the 10-byte buffer. -/
def versionBytes (h3 h4 : Nat) : List Nat :=
  (([73, 68, 51, 118, 50, 46] ++ (Nat.toDigits 10 h3).map Char.toNat
      ++ [46] ++ (Nat.toDigits 10 h4).map Char.toNat).take 9)

/-- The `if/else if` chain of `read_id3_tags` assigning frame content to a
record field by frame id (`strcmp` on the id buffer): `TIT2` title, `TPE1`
artist, `TALB` album, `TYER` year, `COMM` comment, `TCON` genre; unknown
ids leave the record unchanged. -/
def assign (fid : List Nat) (v : List Nat) (d : TagData) : TagData :=
  if fid = [84, 73, 84, 50] then { d with title := some v }
  else if fid = [84, 80, 69, 49] then { d with artist := some v }
  else if fid = [84, 65, 76, 66] then { d with album := some v }
  else if fid = [84, 89, 69, 82] then { d with year := some v }
  else if fid = [67, 79, 77, 77] then { d with comment := some v }
  else if fid = [84, 67, 79, 78] then { d with genre := some v }
  else d

/-- The frame loop of `read_id3_tags`. `budget` is `tagEnd - ftell(fp)`
(the loop runs while it is positive) and `rest` the file bytes from the
current position. One iteration: read 10 header bytes (break if short),
break if the id's first byte is 0, decode the big-endian size, read that
many content bytes (break if short), NUL-terminate and `strdup` the
content (truncating at its first NUL) into the field selected by the id.
`fuel` is an upper bound on the iteration count used only to make the
recursion structural; every iteration consumes at least 10 of `budget`,
so `fuel = budget` never runs out (`parseFramesF_fuel` below). -/
def parseFramesF : Nat → Nat → List Nat → TagData → TagData
  | 0, _, _, d => d
  | fuel + 1, budget, rest, d =>
    if budget = 0 then d
    else if rest.length < 10 then d
    else if byteAt rest 0 = 0 then d
    else if (rest.drop 10).length < frameSizeOf ((rest.drop 4).take 4) then d
    else
      parseFramesF fuel
        (budget - (10 + frameSizeOf ((rest.drop 4).take 4)))
        (rest.drop (10 + frameSizeOf ((rest.drop 4).take 4)))
        (assign (cstr (rest.take 4))
          (((rest.drop 10).take (frameSizeOf ((rest.drop 4).take 4))).takeWhile
            (fun b => b != 0)) d)

/-- Reader error outcomes, one per distinct failure path of
`read_id3_tags` that is decided by the inputs (spec §7 names). -/
inductive ReadError where
  | NotAnMp3File
  | TruncatedHeader
  | NoTagFound
deriving DecidableEq, Repr

/-- `read_id3_tags` from `id3_reader.c`: extension gate, 10-byte header
read, `"ID3"` magic check, sync-safe size decode, version string, then
the frame loop over the `tagSize` bytes after the header. -/
def read_id3_tags (filename : List Char) (file : List Nat) :
    Except ReadError TagData :=
  if check_id3_tag_presence filename = false then .error .NotAnMp3File
  else if file.length < 10 then .error .TruncatedHeader
  else if ¬ file.take 3 = [73, 68, 51] then .error .NoTagFound
  else
    let tagSize := syncSafeSize (byteAt file 6) (byteAt file 7)
      (byteAt file 8) (byteAt file 9)
    .ok (parseFramesF tagSize tagSize (file.drop 10)
      { create_tag_data with
          version := some (versionBytes (byteAt file 3) (byteAt file 4)) })

/-- Big-endian 4-byte encoding of a content size, from `write_frame`:
`size_bytes[i] = (content_size >> (24-8i)) & 0xFF`. -/
def be32enc (n : Nat) : List Nat :=
  [(n >>> 24) &&& 255, (n >>> 16) &&& 255, (n >>> 8) &&& 255, n &&& 255]

/-- `write_frame` from `id3_writer.c`: nothing for a `NULL` field;
otherwise the 4 id bytes, the big-endian `strlen` of the content, two
zero flag bytes, and the first `strlen` bytes of the content. -/
def write_frame (fid : List Nat) : Option (List Nat) → List Nat
  | none => []
  | some content =>
    let c := content.takeWhile (fun b => b != 0)
    fid ++ be32enc c.length ++ [0, 0] ++ c

/-- Writer error outcomes decided by the inputs: the extension gate and
the short header read (OS-level open/remove/rename failures are not
modelled, see the header comment). -/
inductive WriteError where
  | NotAnMp3File
  | TruncatedHeader
deriving DecidableEq, Repr

/-- `write_id3_tags` from `id3_writer.c`: extension gate, copy the first
10 original bytes verbatim, emit the six frames in the fixed order title,
artist, album, year, comment, genre, then copy the original bytes from
offset 300 on; the temporary file then replaces the original, so the
returned list is the target file's new contents. -/
def write_id3_tags (filename : List Char) (d : TagData) (orig : List Nat) :
    Except WriteError (List Nat) :=
  if check_id3_tag_presence filename = false then .error .NotAnMp3File
  else if orig.length < 10 then .error .TruncatedHeader
  else
    .ok (orig.take 10
      ++ write_frame [84, 73, 84, 50] d.title
      ++ write_frame [84, 80, 69, 49] d.artist
      ++ write_frame [84, 65, 76, 66] d.album
      ++ write_frame [84, 89, 69, 82] d.year
      ++ write_frame [67, 79, 77, 77] d.comment
      ++ write_frame [84, 67, 79, 78] d.genre
      ++ orig.drop 300)

/-- Outcome of `edit_tag`, one per distinct exit path of the C function. -/
inductive EditOutcome where
  | success
  | readFailed
  | unknownField
  | writeFailed
deriving DecidableEq, Repr

/-- The `if/else if` chain of `edit_tag` selecting the field to replace;
`none` models the final `else` branch (unknown tag name). -/
def setField (tag : List Char) (value : List Nat) (d : TagData) :
    Option TagData :=
  if tag = "title".toList then some { d with title := some value }
  else if tag = "artist".toList then some { d with artist := some value }
  else if tag = "album".toList then some { d with album := some value }
  else if tag = "year".toList then some { d with year := some value }
  else if tag = "comment".toList then some { d with comment := some value }
  else if tag = "genre".toList then some { d with genre := some value }
  else none

/-- `edit_tag` from `id3_writer.c`: read the current tags (failure exits
before any field comparison), replace the selected field (an unknown name
exits before any write), then rewrite the file. The second component is
the target file's contents after the call: it changes only on the
successful-write path. -/
def edit_tag (filename : List Char) (tag : List Char) (value : List Nat)
    (file : List Nat) : EditOutcome × List Nat :=
  match read_id3_tags filename file with
  | .error _ => (.readFailed, file)
  | .ok d =>
    match setField tag value d with
    | none => (.unknownField, file)
    | some d2 =>
      match write_id3_tags filename d2 file with
      | .error _ => (.writeFailed, file)
      | .ok out => (.success, out)
/-- Sync-safe 4-byte encoding of a tag size (7 usable bits per byte), the
left inverse of `syncSafeSize` used to build concrete test headers. -/
def syncSafeEnc (n : Nat) : List Nat :=
  [(n >>> 21) &&& 127, (n >>> 14) &&& 127, (n >>> 7) &&& 127, n &&& 127]

/-- Serialized bytes of one frame `(id, body)` in the wire format the code
reads and writes: 4 id bytes, 4 big-endian length bytes, 2 zero flag
bytes, then the body. -/
def frameBytes (p : List Nat × List Nat) : List Nat :=
  p.1 ++ be32enc p.2.length ++ [0, 0] ++ p.2

/-- Concatenated serialization of a list of frames. -/
def framesBytes : List (List Nat × List Nat) → List Nat
  | [] => []
  | p :: fs => frameBytes p ++ framesBytes fs

/-- Total byte length of a serialized frame list. -/
def framesLen (fs : List (List Nat × List Nat)) : Nat := (framesBytes fs).length

/-- A frame the reader can process: 4-byte id whose first byte is nonzero,
body length representable in the 32-bit size field. -/
def wfFrame (p : List Nat × List Nat) : Prop :=
  p.1.length = 4 ∧ byteAt p.1 0 ≠ 0 ∧ p.2.length < 2 ^ 32

/-- Effect of one iteration of the reader loop on the record: `strdup` the
body up to its first NUL into the field selected by the id buffer. -/
def readStep (d : TagData) (p : List Nat × List Nat) : TagData :=
  assign (cstr p.1) (p.2.takeWhile (fun b => b != 0)) d

/-- A complete tag file: `ID3` magic, version bytes, flags byte, sync-safe
encoded size of the serialized frames, the frames, then trailing bytes. -/
def mkTagFile (h3 h4 h5 : Nat) (fs : List (List Nat × List Nat))
    (tail : List Nat) : List Nat :=
  [73, 68, 51, h3, h4, h5] ++ syncSafeEnc (framesLen fs)
    ++ (framesBytes fs ++ tail)

/-- The six frame ids the reader recognizes: `TIT2`, `TPE1`, `TALB`,
`TYER`, `COMM`, `TCON` as byte lists. -/
def sixIds : List (List Nat) :=
  [[84, 73, 84, 50], [84, 80, 69, 49], [84, 65, 76, 66],
   [84, 89, 69, 82], [67, 79, 77, 77], [84, 67, 79, 78]]

/-- The record field a recognized frame id is stored into, mirroring the
id dispatch of `read_id3_tags`; `none` for unrecognized ids. -/
def fieldOf (fid : List Nat) (d : TagData) : Option (List Nat) :=
  if fid = [84, 73, 84, 50] then d.title
  else if fid = [84, 80, 69, 49] then d.artist
  else if fid = [84, 65, 76, 66] then d.album
  else if fid = [84, 89, 69, 82] then d.year
  else if fid = [67, 79, 77, 77] then d.comment
  else if fid = [84, 67, 79, 78] then d.genre
  else none

/-- No byte of the list is zero — the representation invariant of a C
string's contents. -/
def noNulBytes (l : List Nat) : Bool := l.all (fun b => b != 0)

/-- An optional field is absent or holds NUL-free bytes. -/
def noNulO : Option (List Nat) → Bool
  | none => true
  | some v => noNulBytes v

/-- All six text fields satisfy the C-string representation invariant. -/
def tagNulFree (d : TagData) : Bool :=
  noNulO d.title && noNulO d.artist && noNulO d.album && noNulO d.year &&
    noNulO d.comment && noNulO d.genre

/-- Modelled from the spec: "emit a frame: 4-byte ASCII id, 4-byte
big-endian content length (byte count of the value), 2 zero flag bytes,
then the raw bytes of the value. Absent fields emit nothing." Stated on
the raw field value, for comparison with `write_frame` from the code. -/
def specFrame (fid : List Nat) : Option (List Nat) → List Nat
  | none => []
  | some v => fid ++ be32enc v.length ++ [0, 0] ++ v

/-- Byte values of a string's characters. -/
def strBytes (s : String) : List Nat := s.toList.map Char.toNat

/-- The concrete file of the spec's scenario: header
`ID3 03 00 00` + sync-safe size 0x23 = 35, a `TIT2` frame of length 5
containing `"Hello"`, and 20 padding zero bytes. -/
def c3file : List Nat :=
  [73, 68, 51, 3, 0, 0, 0, 0, 0, 35]
    ++ [84, 73, 84, 50] ++ [0, 0, 0, 5] ++ [0, 0] ++ strBytes "Hello"
    ++ List.replicate 20 0

/-- What the reader actually returns on `c3file`. -/
def c3expected : TagData :=
  { version := some (strBytes "ID3v2.3.0"), title := some (strBytes "Hello"),
    artist := none, album := none, year := none, comment := none,
    genre := none }

/-- The six field names `edit_tag` recognizes. -/
def sixNames : List (List Char) :=
  ["title".toList, "artist".toList, "album".toList, "year".toList,
   "comment".toList, "genre".toList]

/-- A 10-byte original file whose header declares tag size 0. -/
def c1orig : List Nat := [73, 68, 51, 3, 0, 0, 0, 0, 0, 0]

/-- A record with all six text fields set. -/
def c1rec : TagData :=
  { version := none, title := some [65], artist := some [66],
    album := some [67], year := some [68], comment := some [69],
    genre := some [70] }

lemma or_add (x y : Nat) (i : Nat) (hx : ∃ a, x = 2 ^ i * a) (hy : y < 2 ^ i) :
    x ||| y = x + y := by
  obtain ⟨a, rfl⟩ := hx
  rw [← Nat.mul_add_lt_is_or hy a]

lemma and255 (x : Nat) : x &&& 255 = x % 256 := by
  have h : (255 : Nat) = 2 ^ 8 - 1 := by norm_num
  rw [h, Nat.and_pow_two_sub_one_eq_mod]

lemma and127 (x : Nat) : x &&& 127 = x % 128 := by
  have h : (127 : Nat) = 2 ^ 7 - 1 := by norm_num
  rw [h, Nat.and_pow_two_sub_one_eq_mod]

lemma frameSizeOf_eq (a b c d : Nat) (hb : b < 256) (hc : c < 256)
    (hd : d < 256) :
    frameSizeOf [a, b, c, d] = a * 2 ^ 24 + b * 2 ^ 16 + c * 2 ^ 8 + d := by
  have e0 : byteAt [a, b, c, d] 0 = a := rfl
  have e1 : byteAt [a, b, c, d] 1 = b := rfl
  have e2 : byteAt [a, b, c, d] 2 = c := rfl
  have e3 : byteAt [a, b, c, d] 3 = d := rfl
  unfold frameSizeOf
  rw [e0, e1, e2, e3, Nat.shiftLeft_eq, Nat.shiftLeft_eq, Nat.shiftLeft_eq]
  rw [or_add (a * 2 ^ 24) (b * 2 ^ 16) 24 ⟨a, by ring⟩ (by omega)]
  rw [or_add (a * 2 ^ 24 + b * 2 ^ 16) (c * 2 ^ 8) 16
    ⟨a * 2 ^ 8 + b, by ring⟩ (by omega)]
  rw [or_add (a * 2 ^ 24 + b * 2 ^ 16 + c * 2 ^ 8) d 8
    ⟨a * 2 ^ 16 + b * 2 ^ 8 + c, by ring⟩ (by omega)]

lemma frameSizeOf_be32enc (n : Nat) (h : n < 2 ^ 32) :
    frameSizeOf (be32enc n) = n := by
  unfold be32enc
  rw [Nat.shiftRight_eq_div_pow, Nat.shiftRight_eq_div_pow,
    Nat.shiftRight_eq_div_pow, and255, and255, and255, and255]
  rw [frameSizeOf_eq _ _ _ _ (by omega) (by omega) (by omega)]
  omega

lemma syncSafeSize_eq (a b c d : Nat) :
    syncSafeSize a b c d =
      (a % 128) * 2 ^ 21 + (b % 128) * 2 ^ 14 + (c % 128) * 2 ^ 7 + d % 128 := by
  unfold syncSafeSize
  rw [and127, and127, and127, and127, Nat.shiftLeft_eq, Nat.shiftLeft_eq,
    Nat.shiftLeft_eq]
  rw [or_add (a % 128 * 2 ^ 21) (b % 128 * 2 ^ 14) 21
    ⟨a % 128, by ring⟩ (by omega)]
  rw [or_add (a % 128 * 2 ^ 21 + b % 128 * 2 ^ 14) (c % 128 * 2 ^ 7) 14
    ⟨a % 128 * 2 ^ 7 + b % 128, by ring⟩ (by omega)]
  rw [or_add (a % 128 * 2 ^ 21 + b % 128 * 2 ^ 14 + c % 128 * 2 ^ 7) (d % 128) 7
    ⟨a % 128 * 2 ^ 14 + b % 128 * 2 ^ 7 + c % 128, by ring⟩ (by omega)]

lemma syncSafeSize_enc (n : Nat) (h : n < 2 ^ 28) :
    syncSafeSize (byteAt (syncSafeEnc n) 0) (byteAt (syncSafeEnc n) 1)
      (byteAt (syncSafeEnc n) 2) (byteAt (syncSafeEnc n) 3) = n := by
  have e0 : byteAt (syncSafeEnc n) 0 = (n >>> 21) &&& 127 := rfl
  have e1 : byteAt (syncSafeEnc n) 1 = (n >>> 14) &&& 127 := rfl
  have e2 : byteAt (syncSafeEnc n) 2 = (n >>> 7) &&& 127 := rfl
  have e3 : byteAt (syncSafeEnc n) 3 = n &&& 127 := rfl
  rw [e0, e1, e2, e3, Nat.shiftRight_eq_div_pow, Nat.shiftRight_eq_div_pow,
    Nat.shiftRight_eq_div_pow, and127, and127, and127, and127,
    syncSafeSize_eq]
  omega

lemma syncSafeSize_lt (a b c d : Nat) : syncSafeSize a b c d < 2 ^ 28 := by
  rw [syncSafeSize_eq]
  omega

lemma byteAt_append_left (l m : List Nat) (i : Nat) (h : i < l.length) :
    byteAt (l ++ m) i = byteAt l i := by
  simp [byteAt, List.getD_eq_getElem?_getD, List.getElem?_append_left h]

lemma byteAt_take (l : List Nat) (n i : Nat) (h : i < n) :
    byteAt (l.take n) i = byteAt l i := by
  simp [byteAt, List.getD_eq_getElem?_getD, List.getElem?_take_of_lt h]

lemma frameBytes_shape1 (p : List Nat × List Nat) (rest : List Nat) :
    frameBytes p ++ rest =
      p.1 ++ (be32enc p.2.length ++ ([0, 0] ++ (p.2 ++ rest))) := by
  simp [frameBytes, List.append_assoc]

lemma frameBytes_shape2 (p : List Nat × List Nat) (rest : List Nat) :
    frameBytes p ++ rest =
      (p.1 ++ be32enc p.2.length ++ [0, 0]) ++ (p.2 ++ rest) := by
  simp [frameBytes, List.append_assoc]

lemma frameBytes_shape3 (p : List Nat × List Nat) (rest : List Nat) :
    frameBytes p ++ rest =
      (p.1 ++ be32enc p.2.length ++ [0, 0] ++ p.2) ++ rest := by
  simp [frameBytes, List.append_assoc]

lemma parseFramesF_cons (fuel b2 : Nat) (p : List Nat × List Nat)
    (rest : List Nat) (d : TagData) (hwf : wfFrame p) :
    parseFramesF (fuel + 1) (10 + p.2.length + b2) (frameBytes p ++ rest) d =
      parseFramesF fuel b2 rest (readStep d p) := by
  obtain ⟨hid, hid0, hsz⟩ := hwf
  have hhdr : (p.1 ++ be32enc p.2.length ++ [0, 0]).length = 10 := by
    simp [be32enc, hid]
  have hall : (p.1 ++ be32enc p.2.length ++ [0, 0] ++ p.2).length =
      10 + p.2.length := by
    simp [be32enc, hid]; omega
  have hlen : (frameBytes p ++ rest).length = 10 + p.2.length + rest.length := by
    rw [frameBytes_shape3, List.length_append, hall]
  have hb0 : byteAt (frameBytes p ++ rest) 0 = byteAt p.1 0 := by
    rw [frameBytes_shape1]
    exact byteAt_append_left _ _ 0 (by omega)
  have hdrop4 : ((frameBytes p ++ rest).drop 4).take 4 = be32enc p.2.length := by
    rw [frameBytes_shape1, List.drop_left' hid,
      List.take_left' (by simp [be32enc])]
  have hdrop10 : (frameBytes p ++ rest).drop 10 = p.2 ++ rest := by
    rw [frameBytes_shape2, List.drop_left' hhdr]
  have htake4 : (frameBytes p ++ rest).take 4 = p.1 := by
    rw [frameBytes_shape1, List.take_left' hid]
  have hdropAll : (frameBytes p ++ rest).drop (10 + p.2.length) = rest := by
    rw [frameBytes_shape3, List.drop_left' hall]
  rw [parseFramesF, hb0, hdrop4, frameSizeOf_be32enc _ hsz, hdrop10, htake4,
    hdropAll]
  rw [if_neg (by omega : ¬ 10 + p.2.length + b2 = 0)]
  rw [if_neg (by omega : ¬ (frameBytes p ++ rest).length < 10)]
  rw [if_neg hid0]
  rw [if_neg (by simp : ¬ (p.2 ++ rest).length < p.2.length)]
  rw [show 10 + p.2.length + b2 - (10 + p.2.length) = b2 from by omega]
  rw [List.take_left]
  rfl

lemma framesLen_cons (p : List Nat × List Nat)
    (fs : List (List Nat × List Nat)) (h : p.1.length = 4) :
    framesLen (p :: fs) = 10 + p.2.length + framesLen fs := by
  have : (frameBytes p).length = 10 + p.2.length := by
    simp [frameBytes, be32enc, h]; omega
  simp [framesLen, framesBytes, this]

lemma length_le_framesLen (fs : List (List Nat × List Nat)) :
    fs.length ≤ framesLen fs := by
  induction fs with
  | nil => simp [framesLen, framesBytes]
  | cons p fs ih =>
    have h : (frameBytes p).length = p.1.length + 4 + 2 + p.2.length := by
      simp [frameBytes, be32enc]; omega
    simp only [framesLen, framesBytes, List.length_append, List.length_cons]
    simp only [framesLen] at ih
    omega

lemma parseFramesF_serialized (fs : List (List Nat × List Nat)) :
    ∀ (fuel : Nat) (rest : List Nat) (d : TagData),
      (∀ p ∈ fs, wfFrame p) → fs.length ≤ fuel →
      parseFramesF fuel (framesLen fs) (framesBytes fs ++ rest) d =
        fs.foldl readStep d := by
  induction fs with
  | nil =>
    intro fuel rest d _ _
    cases fuel with
    | zero => rfl
    | succ fuel => simp [parseFramesF, framesLen, framesBytes]
  | cons p fs ih =>
    intro fuel rest d hwf hfuel
    obtain ⟨fuel, rfl⟩ : ∃ f, fuel = f + 1 :=
      ⟨fuel - 1, by simp at hfuel; omega⟩
    have hp := hwf p (by simp)
    rw [framesLen_cons p fs hp.1,
      show framesBytes (p :: fs) ++ rest = frameBytes p ++ (framesBytes fs ++ rest)
        from by simp [framesBytes, List.append_assoc],
      parseFramesF_cons fuel (framesLen fs) p _ d hp]
    rw [List.foldl_cons]
    exact ih fuel rest (readStep d p) (fun q hq => hwf q (by simp [hq]))
      (by simp at hfuel; omega)

lemma read_mkTagFile (filename : List Char) (h3 h4 h5 : Nat)
    (fs : List (List Nat × List Nat)) (tail : List Nat)
    (hext : check_id3_tag_presence filename = true)
    (hwf : ∀ p ∈ fs, wfFrame p) (hsz : framesLen fs < 2 ^ 28) :
    read_id3_tags filename (mkTagFile h3 h4 h5 fs tail) =
      .ok (fs.foldl readStep
        { create_tag_data with version := some (versionBytes h3 h4) }) := by
  have hlen : ¬ (mkTagFile h3 h4 h5 fs tail).length < 10 := by
    simp [mkTagFile, syncSafeEnc]
  have hmagic : (mkTagFile h3 h4 h5 fs tail).take 3 = [73, 68, 51] := rfl
  have h6 : byteAt (mkTagFile h3 h4 h5 fs tail) 6 =
      byteAt (syncSafeEnc (framesLen fs)) 0 := rfl
  have h7 : byteAt (mkTagFile h3 h4 h5 fs tail) 7 =
      byteAt (syncSafeEnc (framesLen fs)) 1 := rfl
  have h8 : byteAt (mkTagFile h3 h4 h5 fs tail) 8 =
      byteAt (syncSafeEnc (framesLen fs)) 2 := rfl
  have h9 : byteAt (mkTagFile h3 h4 h5 fs tail) 9 =
      byteAt (syncSafeEnc (framesLen fs)) 3 := rfl
  have h3' : byteAt (mkTagFile h3 h4 h5 fs tail) 3 = h3 := rfl
  have h4' : byteAt (mkTagFile h3 h4 h5 fs tail) 4 = h4 := rfl
  have hdrop : (mkTagFile h3 h4 h5 fs tail).drop 10 = framesBytes fs ++ tail := by
    simp [mkTagFile, syncSafeEnc]
  rw [read_id3_tags]
  rw [if_neg (by simp [hext])]
  rw [if_neg hlen]
  rw [if_neg (by rw [hmagic]; simp)]
  rw [h6, h7, h8, h9, h3', h4', syncSafeSize_enc _ hsz, hdrop]
  exact congrArg Except.ok (parseFramesF_serialized fs (framesLen fs) tail _
    hwf (length_le_framesLen fs))

lemma read_general (filename : List Char) (file : List Nat)
    (fs : List (List Nat × List Nat)) (tail : List Nat)
    (hext : check_id3_tag_presence filename = true)
    (hlen : 10 ≤ file.length)
    (hmagic : file.take 3 = [73, 68, 51])
    (hwf : ∀ p ∈ fs, wfFrame p)
    (hsize : syncSafeSize (byteAt file 6) (byteAt file 7) (byteAt file 8)
      (byteAt file 9) = framesLen fs)
    (hbody : file.drop 10 = framesBytes fs ++ tail) :
    read_id3_tags filename file =
      .ok (fs.foldl readStep
        { create_tag_data with
            version := some (versionBytes (byteAt file 3) (byteAt file 4)) }) := by
  rw [read_id3_tags]
  rw [if_neg (by simp [hext])]
  rw [if_neg (by omega)]
  rw [if_neg (by rw [hmagic]; simp)]
  rw [hsize, hbody]
  exact congrArg Except.ok (parseFramesF_serialized fs (framesLen fs) tail _
    hwf (length_le_framesLen fs))

lemma fieldOf_assign_same (fid : List Nat) (hfid : fid ∈ sixIds)
    (v : List Nat) (d : TagData) : fieldOf fid (assign fid v d) = some v := by
  simp only [sixIds, List.mem_cons, List.not_mem_nil, or_false] at hfid
  rcases hfid with rfl | rfl | rfl | rfl | rfl | rfl <;> rfl

lemma fieldOf_assign_other (fid g : List Nat) (hfid : fid ∈ sixIds)
    (hne : g ≠ fid) (v : List Nat) (d : TagData) :
    fieldOf fid (assign g v d) = fieldOf fid d := by
  simp only [sixIds, List.mem_cons, List.not_mem_nil, or_false] at hfid
  rcases hfid with rfl | rfl | rfl | rfl | rfl | rfl <;>
    · simp only [assign]
      split_ifs <;> first | rfl | exact absurd (by assumption) hne

lemma assign_unknown (g : List Nat) (hg : g ∉ sixIds) (v : List Nat)
    (d : TagData) : assign g v d = d := by
  simp only [sixIds, List.mem_cons, List.not_mem_nil, or_false, not_or] at hg
  obtain ⟨h1, h2, h3, h4, h5, h6⟩ := hg
  simp [assign, h1, h2, h3, h4, h5, h6]

lemma fieldOf_foldl (fid : List Nat) (hfid : fid ∈ sixIds)
    (fs : List (List Nat × List Nat)) (d : TagData) :
    fieldOf fid (fs.foldl readStep d) =
      ((fs.filter (fun p => cstr p.1 == fid)).getLast?).elim
        (fieldOf fid d) (fun p => some (p.2.takeWhile (fun b => b != 0))) := by
  induction fs generalizing d with
  | nil => rfl
  | cons p fs ih =>
    rw [List.foldl_cons, ih (readStep d p), List.filter_cons]
    by_cases hm : cstr p.1 = fid
    · simp only [hm, beq_self_eq_true, if_true]
      cases hlast : (fs.filter (fun q => cstr q.1 == fid)).getLast? with
      | some q =>
        have : ((p :: fs.filter (fun q => cstr q.1 == fid)).getLast?) = some q := by
          cases hjs : fs.filter (fun q => cstr q.1 == fid) with
          | nil => rw [hjs] at hlast; simp at hlast
          | cons j js =>
            rw [hjs] at hlast
            rw [List.getLast?_cons_cons, hlast]
        rw [this]
        simp
      | none =>
        have : ((p :: fs.filter (fun q => cstr q.1 == fid)).getLast?) = some p := by
          cases hjs : fs.filter (fun q => cstr q.1 == fid) with
          | nil => rfl
          | cons j js => rw [hjs] at hlast; simp [List.getLast?_cons_cons] at hlast
        rw [this]
        simp only [Option.elim]
        rw [readStep, ← hm,
          fieldOf_assign_same (cstr p.1) (hm ▸ hfid) _ d]
    · have hbeq : (cstr p.1 == fid) = false := by
        simp [hm]
      rw [if_neg (by simp [hbeq])]
      cases hlast : (fs.filter (fun q => cstr q.1 == fid)).getLast? with
      | some q => simp
      | none =>
        simp only [Option.elim]
        exact fieldOf_assign_other fid (cstr p.1) hfid hm _ d

lemma sixIds_shape (fid : List Nat) (hfid : fid ∈ sixIds) :
    fid.length = 4 ∧ byteAt fid 0 ≠ 0 ∧ cstr fid = fid := by
  simp only [sixIds, List.mem_cons, List.not_mem_nil, or_false] at hfid
  rcases hfid with rfl | rfl | rfl | rfl | rfl | rfl <;>
    exact ⟨rfl, by decide, rfl⟩

lemma takeWhile_of_noNul (l : List Nat) (h : noNulBytes l = true) :
    l.takeWhile (fun b => b != 0) = l := by
  rw [List.takeWhile_eq_self_iff]
  intro x hx
  exact (List.all_eq_true.mp h) x hx

lemma write_frame_eq_specFrame (fid : List Nat) (o : Option (List Nat))
    (h : noNulO o = true) : write_frame fid o = specFrame fid o := by
  cases o with
  | none => rfl
  | some v =>
    simp only [write_frame, specFrame]
    rw [takeWhile_of_noNul v h]

lemma write_frame_eq_frameBytes (fid v : List Nat) (h : noNulBytes v = true) :
    write_frame fid (some v) = frameBytes (fid, v) := by
  simp only [write_frame, frameBytes]
  rw [takeWhile_of_noNul v h]

lemma write_ok (filename : List Char) (d : TagData) (orig : List Nat)
    (hext : check_id3_tag_presence filename = true) (hlen : 10 ≤ orig.length) :
    write_id3_tags filename d orig = .ok (orig.take 10
      ++ write_frame [84, 73, 84, 50] d.title
      ++ write_frame [84, 80, 69, 49] d.artist
      ++ write_frame [84, 65, 76, 66] d.album
      ++ write_frame [84, 89, 69, 82] d.year
      ++ write_frame [67, 79, 77, 77] d.comment
      ++ write_frame [84, 67, 79, 78] d.genre
      ++ orig.drop 300) := by
  rw [write_id3_tags, if_neg (by simp [hext]), if_neg (by omega)]

lemma take10_of_append (orig rest : List Nat) (h : 10 ≤ orig.length) :
    (orig.take 10 ++ rest).take 10 = orig.take 10 := by
  rw [List.take_append_of_le_length (by simp [List.length_take]; omega),
    List.take_take]
  simp

lemma strrchrSuffix_append (c : Char) (p m : List Char) (r : List Char)
    (h : strrchrSuffix c m = some r) : strrchrSuffix c (p ++ m) = some r := by
  induction p with
  | nil => simpa using h
  | cons x xs ih => simp [strrchrSuffix, ih]

lemma strrchrSuffix_isSuffix (c : Char) (l r : List Char)
    (h : strrchrSuffix c l = some r) : ∃ p, l = p ++ r := by
  induction l with
  | nil => simp [strrchrSuffix] at h
  | cons x xs ih =>
    rw [strrchrSuffix] at h
    cases hx : strrchrSuffix c xs with
    | some r2 =>
      rw [hx] at h
      simp only [Option.some.injEq] at h
      obtain ⟨p, rfl⟩ := ih (by rw [hx, h])
      exact ⟨x :: p, rfl⟩
    | none =>
      rw [hx] at h
      by_cases hc : x = c
      · rw [if_pos hc] at h
        simp only [Option.some.injEq] at h
        exact ⟨[], h ▸ rfl⟩
      · rw [if_neg hc] at h
        exact absurd h (by simp)

lemma check_true_iff (filename : List Char) :
    check_id3_tag_presence filename = true ↔
      ∃ p, filename = p ++ ".mp3".toList := by
  constructor
  · intro h
    unfold check_id3_tag_presence at h
    cases hx : strrchrSuffix '.' filename with
    | none => rw [hx] at h; simp at h
    | some ext =>
      rw [hx] at h
      have hext : ext = ".mp3".toList := by simpa using h
      exact hext ▸ strrchrSuffix_isSuffix '.' filename ext hx
  · rintro ⟨p, rfl⟩
    unfold check_id3_tag_presence
    rw [strrchrSuffix_append '.' p _ _ (by rfl)]
    simp

lemma endsWith_true_iff (filename : List Char) :
    endsWithMp3 filename = true ↔ ∃ p, filename = p ++ ".mp3".toList := by
  unfold endsWithMp3
  rw [Bool.and_eq_true, decide_eq_true_eq, decide_eq_true_eq]
  constructor
  · rintro ⟨h4, hdrop⟩
    refine ⟨filename.take (filename.length - 4), ?_⟩
    rw [← hdrop, List.take_append_drop]
  · rintro ⟨p, rfl⟩
    have hm : (".mp3".toList).length = 4 := rfl
    constructor
    · rw [List.length_append, hm]; omega
    · have hl : (p ++ ".mp3".toList).length - 4 = p.length := by
        rw [List.length_append, hm]; omega
      rw [hl, List.drop_left]

lemma check_eq_endsWith (filename : List Char) :
    check_id3_tag_presence filename = endsWithMp3 filename := by
  by_cases h : ∃ p, filename = p ++ ".mp3".toList
  · rw [(check_true_iff _).mpr h, (endsWith_true_iff _).mpr h]
  · have h1 : ¬ check_id3_tag_presence filename = true := fun hc =>
      h ((check_true_iff _).mp hc)
    have h2 : ¬ endsWithMp3 filename = true := fun hc =>
      h ((endsWith_true_iff _).mp hc)
    rw [Bool.not_eq_true] at h1 h2
    rw [h1, h2]

lemma setField_none (tag : List Char) (value : List Nat) (d : TagData)
    (h : tag ∉ sixNames) : setField tag value d = none := by
  simp only [sixNames, List.mem_cons, List.not_mem_nil, or_false,
    not_or] at h
  obtain ⟨h1, h2, h3, h4, h5, h6⟩ := h
  unfold setField
  rw [if_neg h1, if_neg h2, if_neg h3, if_neg h4, if_neg h5, if_neg h6]

/-- C1 counterexample: a record with all six fields set is written
successfully onto a 10-byte original whose header declares tag size 0;
reading the result back yields an absent title, so the unconditional
round-trip claim fails. -/
theorem C1_counterexample :
    ∃ out, write_id3_tags "a.mp3".toList c1rec c1orig = .ok out ∧
      ∃ d, read_id3_tags "a.mp3".toList out = .ok d ∧
        d.title ≠ c1rec.title := by
  refine ⟨_, rfl, _, rfl, ?_⟩
  decide

/-- C1 (amended): writing a record with all six text fields set (NUL-free
values) and reading the same file back yields the six written values,
provided the original file passes the extension check, begins with the
`ID3` magic, and its declared sync-safe tag size equals the total byte
length of the six emitted frames (60 header bytes plus the six content
lengths); the version field is exempt. -/
theorem C1_round_trip (filename : List Char) (orig : List Nat)
    (ver : Option (List Nat)) (t a al y c g : List Nat)
    (hext : check_id3_tag_presence filename = true)
    (hlen : 10 ≤ orig.length)
    (hmagic : orig.take 3 = [73, 68, 51])
    (hnt : noNulBytes t = true) (hna : noNulBytes a = true)
    (hnal : noNulBytes al = true) (hny : noNulBytes y = true)
    (hnc : noNulBytes c = true) (hng : noNulBytes g = true)
    (hsize : syncSafeSize (byteAt orig 6) (byteAt orig 7) (byteAt orig 8)
        (byteAt orig 9) =
      60 + (t.length + a.length + al.length + y.length + c.length +
        g.length)) :
    ∃ out, write_id3_tags filename
        { version := ver, title := some t, artist := some a,
          album := some al, year := some y, comment := some c,
          genre := some g } orig = .ok out ∧
      ∃ d, read_id3_tags filename out = .ok d ∧
        d.title = some t ∧ d.artist = some a ∧ d.album = some al ∧
        d.year = some y ∧ d.comment = some c ∧ d.genre = some g := by
  have hsum : framesLen [([84, 73, 84, 50], t), ([84, 80, 69, 49], a),
      ([84, 65, 76, 66], al), ([84, 89, 69, 82], y), ([67, 79, 77, 77], c),
      ([84, 67, 79, 78], g)] =
      60 + (t.length + a.length + al.length + y.length + c.length +
        g.length) := by
    simp [framesLen, framesBytes, frameBytes, be32enc]
    omega
  have hb : 60 + (t.length + a.length + al.length + y.length + c.length +
      g.length) < 2 ^ 28 := by
    rw [← hsize]
    exact syncSafeSize_lt _ _ _ _
  have hwf : ∀ p ∈ [([84, 73, 84, 50], t), ([84, 80, 69, 49], a),
      ([84, 65, 76, 66], al), ([84, 89, 69, 82], y), ([67, 79, 77, 77], c),
      ([84, 67, 79, 78], g)], wfFrame p := by
    intro p hp
    simp only [List.mem_cons, List.not_mem_nil, or_false] at hp
    rcases hp with rfl | rfl | rfl | rfl | rfl | rfl
    · exact ⟨rfl, (by decide : byteAt [84, 73, 84, 50] 0 ≠ 0),
        show t.length < 2 ^ 32 by omega⟩
    · exact ⟨rfl, (by decide : byteAt [84, 80, 69, 49] 0 ≠ 0),
        show a.length < 2 ^ 32 by omega⟩
    · exact ⟨rfl, (by decide : byteAt [84, 65, 76, 66] 0 ≠ 0),
        show al.length < 2 ^ 32 by omega⟩
    · exact ⟨rfl, (by decide : byteAt [84, 89, 69, 82] 0 ≠ 0),
        show y.length < 2 ^ 32 by omega⟩
    · exact ⟨rfl, (by decide : byteAt [67, 79, 77, 77] 0 ≠ 0),
        show c.length < 2 ^ 32 by omega⟩
    · exact ⟨rfl, (by decide : byteAt [84, 67, 79, 78] 0 ≠ 0),
        show g.length < 2 ^ 32 by omega⟩
  have h10 : (orig.take 10).length = 10 := by
    rw [List.length_take]
    omega
  have hout : write_id3_tags filename
      { version := ver, title := some t, artist := some a, album := some al,
        year := some y, comment := some c, genre := some g } orig =
      .ok (orig.take 10 ++ (framesBytes [([84, 73, 84, 50], t),
        ([84, 80, 69, 49], a), ([84, 65, 76, 66], al), ([84, 89, 69, 82], y),
        ([67, 79, 77, 77], c), ([84, 67, 79, 78], g)] ++ orig.drop 300)) := by
    rw [write_ok filename _ orig hext hlen]
    show Except.ok (orig.take 10
      ++ write_frame [84, 73, 84, 50] (some t)
      ++ write_frame [84, 80, 69, 49] (some a)
      ++ write_frame [84, 65, 76, 66] (some al)
      ++ write_frame [84, 89, 69, 82] (some y)
      ++ write_frame [67, 79, 77, 77] (some c)
      ++ write_frame [84, 67, 79, 78] (some g)
      ++ orig.drop 300) = _
    rw [write_frame_eq_frameBytes _ _ hnt, write_frame_eq_frameBytes _ _ hna,
      write_frame_eq_frameBytes _ _ hnal, write_frame_eq_frameBytes _ _ hny,
      write_frame_eq_frameBytes _ _ hnc, write_frame_eq_frameBytes _ _ hng]
    simp [framesBytes, List.append_assoc]
  refine ⟨_, hout, ?_⟩
  have hbyte : ∀ i, i < 10 → byteAt (orig.take 10 ++ (framesBytes
      [([84, 73, 84, 50], t), ([84, 80, 69, 49], a), ([84, 65, 76, 66], al),
       ([84, 89, 69, 82], y), ([67, 79, 77, 77], c), ([84, 67, 79, 78], g)]
      ++ orig.drop 300)) i = byteAt orig i := by
    intro i hi
    rw [byteAt_append_left _ _ i (by omega), byteAt_take _ _ _ hi]
  have hread := read_general filename
    (orig.take 10 ++ (framesBytes [([84, 73, 84, 50], t),
      ([84, 80, 69, 49], a), ([84, 65, 76, 66], al), ([84, 89, 69, 82], y),
      ([67, 79, 77, 77], c), ([84, 67, 79, 78], g)] ++ orig.drop 300))
    [([84, 73, 84, 50], t), ([84, 80, 69, 49], a), ([84, 65, 76, 66], al),
     ([84, 89, 69, 82], y), ([67, 79, 77, 77], c), ([84, 67, 79, 78], g)]
    (orig.drop 300) hext
    (by rw [List.length_append, h10]; omega)
    (by rw [List.take_append_of_le_length (by omega), List.take_take]
        simpa using hmagic)
    hwf
    (by rw [hbyte 6 (by omega), hbyte 7 (by omega), hbyte 8 (by omega),
      hbyte 9 (by omega), hsize, hsum])
    (List.drop_left' h10)
  refine ⟨_, hread, ?_, ?_, ?_, ?_, ?_, ?_⟩
  · exact congrArg some (takeWhile_of_noNul t hnt)
  · exact congrArg some (takeWhile_of_noNul a hna)
  · exact congrArg some (takeWhile_of_noNul al hnal)
  · exact congrArg some (takeWhile_of_noNul y hny)
  · exact congrArg some (takeWhile_of_noNul c hnc)
  · exact congrArg some (takeWhile_of_noNul g hng)

/-- Concrete instance of the amended C1 round trip. -/
theorem C1_witness :
    ∃ out, write_id3_tags "a.mp3".toList
        { version := none, title := some [65], artist := some [66],
          album := some [67], year := some [68], comment := some [69],
          genre := some [70] } [73, 68, 51, 3, 0, 0, 0, 0, 0, 66] =
        .ok out ∧
      ∃ d, read_id3_tags "a.mp3".toList out = .ok d ∧
        d.title = some [65] ∧ d.artist = some [66] ∧ d.album = some [67] ∧
        d.year = some [68] ∧ d.comment = some [69] ∧ d.genre = some [70] :=
  C1_round_trip "a.mp3".toList [73, 68, 51, 3, 0, 0, 0, 0, 0, 66] none
    [65] [66] [67] [68] [69] [70] (by rfl) (by decide) (by rfl)
    (by decide) (by decide) (by decide) (by decide) (by decide) (by decide)
    (by decide)

/-- C2: on successful write, the target file is exactly the original's
first 10 bytes, then one frame per present field in the fixed order
title, artist, album, year, comment, genre (4-byte id, 4-byte big-endian
byte count, 2 zero flag bytes, the raw value bytes; absent fields emit
nothing), then the original's bytes from offset 300 on. Field values
carry the C-string invariant of being NUL-free. -/
theorem C2_output_layout (filename : List Char) (d : TagData)
    (orig : List Nat)
    (hext : check_id3_tag_presence filename = true)
    (hlen : 10 ≤ orig.length)
    (hnul : tagNulFree d = true) :
    write_id3_tags filename d orig = .ok (orig.take 10
      ++ specFrame [84, 73, 84, 50] d.title
      ++ specFrame [84, 80, 69, 49] d.artist
      ++ specFrame [84, 65, 76, 66] d.album
      ++ specFrame [84, 89, 69, 82] d.year
      ++ specFrame [67, 79, 77, 77] d.comment
      ++ specFrame [84, 67, 79, 78] d.genre
      ++ orig.drop 300) := by
  have h := hnul
  simp only [tagNulFree, Bool.and_eq_true] at h
  obtain ⟨⟨⟨⟨⟨h1, h2⟩, h3⟩, h4⟩, h5⟩, h6⟩ := h
  rw [write_ok filename d orig hext hlen,
    write_frame_eq_specFrame _ _ h1, write_frame_eq_specFrame _ _ h2,
    write_frame_eq_specFrame _ _ h3, write_frame_eq_specFrame _ _ h4,
    write_frame_eq_specFrame _ _ h5, write_frame_eq_specFrame _ _ h6]

/-- Concrete instance of the C2 output layout. -/
theorem C2_witness :
    write_id3_tags "a.mp3".toList
      { version := none, title := some [72, 105], artist := none,
        album := none, year := some [50, 48, 50, 52], comment := none,
        genre := none }
      [73, 68, 51, 3, 0, 0, 0, 0, 0, 0] = .ok
      ([73, 68, 51, 3, 0, 0, 0, 0, 0, 0].take 10
        ++ specFrame [84, 73, 84, 50] (some [72, 105])
        ++ specFrame [84, 80, 69, 49] none
        ++ specFrame [84, 65, 76, 66] none
        ++ specFrame [84, 89, 69, 82] (some [50, 48, 50, 52])
        ++ specFrame [67, 79, 77, 77] none
        ++ specFrame [84, 67, 79, 78] none
        ++ [73, 68, 51, 3, 0, 0, 0, 0, 0, 0].drop 300) :=
  C2_output_layout "a.mp3".toList _ _ (by rfl) (by decide) (by decide)

/-- C3 counterexample: on the spec's concrete file the reader returns
title `"Hello"` with the other five fields absent, but the version
string is `"ID3v2.3.0"` (from `snprintf("ID3v2.%d.%d", 3, 0)`), not
`"ID3v2.3"` as claimed. -/
theorem C3_counterexample :
    read_id3_tags "a.mp3".toList c3file = .ok c3expected ∧
    c3expected.version ≠ some (strBytes "ID3v2.3") := by
  exact ⟨rfl, by decide⟩

/-- C3 (amended): on the concrete scenario file, read returns
title `"Hello"`, all other text fields absent, and version
`"ID3v2.3.0"`. -/
theorem C3_amended : read_id3_tags "a.mp3".toList c3file = .ok c3expected := rfl

/-- C4 counterexample: on a file whose read fails (here a non-`.mp3`
name), an edit with an unknown field name reports the read failure, not
`UnknownField`, so the claim does not hold for every file. -/
theorem C4_counterexample :
    (edit_tag "a.txt".toList "publisher".toList [] []).1 = .readFailed ∧
    (edit_tag "a.txt".toList "publisher".toList [] []).1 ≠ .unknownField := by
  exact ⟨rfl, by decide⟩

/-- C4 (amended): for every file whose tags read successfully and every
field name outside the six recognized ones, `edit_tag` reports the
unknown-field outcome, attempts no write, and leaves the target file's
contents unchanged. -/
theorem C4_unknown_field (filename tag : List Char) (value : List Nat)
    (file : List Nat) (hread : ∃ d0, read_id3_tags filename file = .ok d0)
    (htag : tag ∉ sixNames) :
    edit_tag filename tag value file = (.unknownField, file) := by
  obtain ⟨d0, hd0⟩ := hread
  unfold edit_tag
  rw [hd0]
  simp [setField_none tag value d0 htag]

/-- Concrete instance of the amended C4 unknown-field behavior. -/
theorem C4_witness :
    edit_tag "a.mp3".toList "publisher".toList [88] c3file =
      (.unknownField, c3file) :=
  C4_unknown_field "a.mp3".toList "publisher".toList [88] c3file
    ⟨c3expected, rfl⟩ (by decide)

/-- C5: the validator accepts a path exactly when it ends with the
case-sensitive suffix `".mp3"`, and on every rejected path both read and
write return the not-an-MP3 error for every possible file contents —
the result being independent of the contents models the absence of any
file I/O. -/
theorem C5_extension_gate (filename : List Char) :
    check_id3_tag_presence filename = endsWithMp3 filename ∧
    (check_id3_tag_presence filename = false →
      ∀ (file : List Nat) (d : TagData),
        read_id3_tags filename file = .error .NotAnMp3File ∧
        write_id3_tags filename d file = .error .NotAnMp3File) := by
  refine ⟨check_eq_endsWith filename, fun h file d => ⟨?_, ?_⟩⟩
  · rw [read_id3_tags, if_pos h]
  · rw [write_id3_tags, if_pos h]

/-- Concrete instance of the C5 extension gate. -/
theorem C5_witness :
    check_id3_tag_presence "song.txt".toList = false ∧
    read_id3_tags "song.txt".toList [73, 68, 51] = .error .NotAnMp3File ∧
    write_id3_tags "song.txt".toList create_tag_data [73, 68, 51] =
      .error .NotAnMp3File := by
  refine ⟨by rfl, ?_⟩
  have h := (C5_extension_gate "song.txt".toList).2 (by rfl)
    [73, 68, 51] create_tag_data
  exact ⟨h.1, h.2⟩

/-- C6: a tag holding an unrecognized frame followed by a recognized one
(both within the declared size) reads exactly like the tag without the
unrecognized frame, and the recognized frame's content still lands in
the corresponding field. -/
theorem C6_skip_unknown (filename : List Char) (h3v h4v h5v : Nat)
    (x u fid v : List Nat)
    (hext : check_id3_tag_presence filename = true)
    (hx : x.length = 4) (hx0 : byteAt x 0 ≠ 0) (hxunk : cstr x ∉ sixIds)
    (hfid : fid ∈ sixIds)
    (hnul : noNulBytes v = true)
    (hsz : u.length + v.length < 2 ^ 28 - 20) :
    read_id3_tags filename (mkTagFile h3v h4v h5v [(x, u), (fid, v)] []) =
      read_id3_tags filename (mkTagFile h3v h4v h5v [(fid, v)] []) ∧
    ∃ d, read_id3_tags filename (mkTagFile h3v h4v h5v [(x, u), (fid, v)] []) =
        .ok d ∧ fieldOf fid d = some v := by
  obtain ⟨hfid4, hfid0, hfidc⟩ := sixIds_shape fid hfid
  have hflen2 : framesLen [(x, u), (fid, v)] = 20 + u.length + v.length := by
    rw [framesLen_cons _ _ hx, framesLen_cons _ _ hfid4]
    simp [framesLen, framesBytes]
    omega
  have hflen1 : framesLen [(fid, v)] = 10 + v.length := by
    rw [framesLen_cons _ _ hfid4]
    simp [framesLen, framesBytes]
  have hwf2 : ∀ p ∈ [(x, u), (fid, v)], wfFrame p := by
    intro p hp
    simp only [List.mem_cons, List.not_mem_nil, or_false] at hp
    rcases hp with rfl | rfl
    · exact ⟨hx, hx0, show u.length < 2 ^ 32 by omega⟩
    · exact ⟨hfid4, hfid0, show v.length < 2 ^ 32 by omega⟩
  have hwf1 : ∀ p ∈ [(fid, v)], wfFrame p := by
    intro p hp
    simp only [List.mem_cons, List.not_mem_nil, or_false] at hp
    rcases hp with rfl
    exact ⟨hfid4, hfid0, show v.length < 2 ^ 32 by omega⟩
  rw [read_mkTagFile filename h3v h4v h5v _ [] hext hwf2 (by omega),
    read_mkTagFile filename h3v h4v h5v _ [] hext hwf1 (by omega)]
  have hfold : [(x, u), (fid, v)].foldl readStep
      { create_tag_data with version := some (versionBytes h3v h4v) } =
      [(fid, v)].foldl readStep
      { create_tag_data with version := some (versionBytes h3v h4v) } := by
    simp only [List.foldl_cons, List.foldl_nil]
    rw [show readStep { create_tag_data with
        version := some (versionBytes h3v h4v) } (x, u) =
      assign (cstr x) (u.takeWhile (fun b => b != 0))
        { create_tag_data with version := some (versionBytes h3v h4v) }
      from rfl]
    rw [assign_unknown (cstr x) hxunk]
  refine ⟨by rw [hfold], ⟨_, rfl, ?_⟩⟩
  rw [hfold]
  simp only [List.foldl_cons, List.foldl_nil]
  rw [show readStep { create_tag_data with
      version := some (versionBytes h3v h4v) } (fid, v) =
    assign (cstr fid) (v.takeWhile (fun b => b != 0))
      { create_tag_data with version := some (versionBytes h3v h4v) }
    from rfl]
  rw [hfidc, fieldOf_assign_same fid hfid, takeWhile_of_noNul v hnul]

/-- Concrete instance of C6 with `XYYZ` followed by `TIT2`. -/
theorem C6_witness :
    read_id3_tags "a.mp3".toList
        (mkTagFile 3 0 0 [([88, 89, 89, 90], [1, 2, 3]),
          ([84, 73, 84, 50], [72, 101, 108, 108, 111])] []) =
      read_id3_tags "a.mp3".toList
        (mkTagFile 3 0 0 [([84, 73, 84, 50], [72, 101, 108, 108, 111])] []) ∧
    ∃ d, read_id3_tags "a.mp3".toList
        (mkTagFile 3 0 0 [([88, 89, 89, 90], [1, 2, 3]),
          ([84, 73, 84, 50], [72, 101, 108, 108, 111])] []) = .ok d ∧
      fieldOf [84, 73, 84, 50] d = some [72, 101, 108, 108, 111] :=
  C6_skip_unknown "a.mp3".toList 3 0 0 [88, 89, 89, 90] [1, 2, 3]
    [84, 73, 84, 50] [72, 101, 108, 108, 111] (by rfl) (by decide) (by decide)
    (by decide) (by decide) (by decide) (by decide)

/-- C7: a well-formed file with the `ID3` magic whose sync-safe size
decodes to 0 reads successfully as a record with all six text fields
absent and only the version populated. -/
theorem C7_empty_tag (filename : List Char) (file : List Nat)
    (hext : check_id3_tag_presence filename = true)
    (hlen : 10 ≤ file.length)
    (hmagic : file.take 3 = [73, 68, 51])
    (hsize : syncSafeSize (byteAt file 6) (byteAt file 7) (byteAt file 8)
      (byteAt file 9) = 0) :
    ∃ d, read_id3_tags filename file = .ok d ∧
      d.title = none ∧ d.artist = none ∧ d.album = none ∧ d.year = none ∧
      d.comment = none ∧ d.genre = none ∧
      d.version = some (versionBytes (byteAt file 3) (byteAt file 4)) := by
  refine ⟨_, read_general filename file [] (file.drop 10) hext hlen hmagic
    (by simp) (by simpa [framesLen, framesBytes] using hsize)
    (by simp [framesBytes]), rfl, rfl, rfl, rfl, rfl, rfl, rfl⟩

/-- Concrete instance of C7 on a bare 10-byte header. -/
theorem C7_witness :
    ∃ d, read_id3_tags "a.mp3".toList [73, 68, 51, 3, 0, 0, 0, 0, 0, 0] =
        .ok d ∧
      d.title = none ∧ d.artist = none ∧ d.album = none ∧ d.year = none ∧
      d.comment = none ∧ d.genre = none ∧
      d.version = some (versionBytes
        (byteAt [73, 68, 51, 3, 0, 0, 0, 0, 0, 0] 3)
        (byteAt [73, 68, 51, 3, 0, 0, 0, 0, 0, 0] 4)) :=
  C7_empty_tag "a.mp3".toList [73, 68, 51, 3, 0, 0, 0, 0, 0, 0]
    (by rfl) (by decide) (by rfl) (by decide)

/-- C8: when a tag contains two or more frames with the same recognized
id, the returned record holds the content of the last such frame, each
later occurrence replacing the earlier value. -/
theorem C8_last_occurrence_wins (filename : List Char) (h3v h4v h5v : Nat)
    (fs : List (List Nat × List Nat)) (fid : List Nat)
    (hext : check_id3_tag_presence filename = true)
    (hfid : fid ∈ sixIds)
    (hwf : ∀ p ∈ fs, wfFrame p)
    (hsz : framesLen fs < 2 ^ 28)
    (hdup : 2 ≤ (fs.filter (fun p => cstr p.1 == fid)).length) :
    ∃ d, read_id3_tags filename (mkTagFile h3v h4v h5v fs []) = .ok d ∧
      ∃ last, (fs.filter (fun p => cstr p.1 == fid)).getLast? = some last ∧
        fieldOf fid d = some (last.2.takeWhile (fun b => b != 0)) := by
  rw [read_mkTagFile filename h3v h4v h5v fs [] hext hwf hsz]
  refine ⟨_, rfl, ?_⟩
  cases hlast : (fs.filter (fun p => cstr p.1 == fid)).getLast? with
  | none =>
    rw [List.getLast?_eq_none_iff] at hlast
    rw [hlast] at hdup
    simp at hdup
  | some q =>
    refine ⟨q, rfl, ?_⟩
    rw [fieldOf_foldl fid hfid fs _, hlast]
    rfl

/-- Concrete instance of C8 with two `TIT2` frames. -/
theorem C8_witness :
    ∃ d, read_id3_tags "a.mp3".toList
        (mkTagFile 3 0 0 [([84, 73, 84, 50], [65]),
          ([84, 73, 84, 50], [66, 67])] []) = .ok d ∧
      ∃ last, ([([84, 73, 84, 50], [65]), ([84, 73, 84, 50], [66, 67])].filter
          (fun p => cstr p.1 == [84, 73, 84, 50])).getLast? = some last ∧
        fieldOf [84, 73, 84, 50] d =
          some (last.2.takeWhile (fun b => b != 0)) :=
  C8_last_occurrence_wins "a.mp3".toList 3 0 0
    [([84, 73, 84, 50], [65]), ([84, 73, 84, 50], [66, 67])]
    [84, 73, 84, 50] (by rfl) (by decide)
    (by intro p hp
        simp only [List.mem_cons, List.not_mem_nil, or_false] at hp
        rcases hp with rfl | rfl <;> exact ⟨rfl, by decide, by norm_num⟩)
    (by decide) (by decide)

/-- C9: a recognized frame whose body contains a zero byte stores only
the prefix strictly before the first zero (not the full declared-length
body), and two bodies of equal declared length that differ only after
the first zero byte produce the same field value. -/
theorem C9_nul_truncation (filename : List Char) (h3v h4v h5v : Nat)
    (fid b1 b2 : List Nat)
    (hext : check_id3_tag_presence filename = true)
    (hfid : fid ∈ sixIds)
    (h0 : 0 ∈ b1)
    (hlen : b1.length = b2.length)
    (hpre : b1.takeWhile (fun b => b != 0) = b2.takeWhile (fun b => b != 0))
    (hsz : b1.length < 2 ^ 28 - 10) :
    (∃ d1, read_id3_tags filename (mkTagFile h3v h4v h5v [(fid, b1)] []) =
        .ok d1 ∧
      fieldOf fid d1 = some (b1.takeWhile (fun b => b != 0)) ∧
      b1.takeWhile (fun b => b != 0) ≠ b1) ∧
    (∃ d2, read_id3_tags filename (mkTagFile h3v h4v h5v [(fid, b2)] []) =
        .ok d2 ∧
      fieldOf fid d2 = some (b1.takeWhile (fun b => b != 0))) := by
  obtain ⟨hfid4, hfid0, hfidc⟩ := sixIds_shape fid hfid
  have hne : b1.takeWhile (fun b => b != 0) ≠ b1 := by
    intro heq
    have := List.takeWhile_eq_self_iff.mp heq 0 h0
    simp at this
  have hone : ∀ b : List Nat, b.length < 2 ^ 28 - 10 →
      read_id3_tags filename (mkTagFile h3v h4v h5v [(fid, b)] []) =
        .ok (assign fid (b.takeWhile (fun x => x != 0))
          { create_tag_data with version := some (versionBytes h3v h4v) }) := by
    intro b hb
    have hflen : framesLen [(fid, b)] = 10 + b.length := by
      rw [framesLen_cons _ _ hfid4]
      simp [framesLen, framesBytes]
    rw [read_mkTagFile filename h3v h4v h5v _ [] hext
      (by intro p hp
          simp only [List.mem_cons, List.not_mem_nil, or_false] at hp
          rcases hp with rfl
          exact ⟨hfid4, hfid0, show b.length < 2 ^ 32 by omega⟩)
      (by omega)]
    simp only [List.foldl_cons, List.foldl_nil]
    rw [show readStep { create_tag_data with
        version := some (versionBytes h3v h4v) } (fid, b) =
      assign (cstr fid) (b.takeWhile (fun x => x != 0))
        { create_tag_data with version := some (versionBytes h3v h4v) }
      from rfl]
    rw [hfidc]
  constructor
  · refine ⟨_, hone b1 hsz, ?_, hne⟩
    rw [fieldOf_assign_same fid hfid]
  · refine ⟨_, hone b2 (by omega), ?_⟩
    rw [fieldOf_assign_same fid hfid, ← hpre]

/-- Concrete instance of C9 with bodies differing after an embedded NUL. -/
theorem C9_witness :
    (∃ d1, read_id3_tags "a.mp3".toList
        (mkTagFile 3 0 0 [([84, 73, 84, 50], [72, 105, 0, 65])] []) =
        .ok d1 ∧
      fieldOf [84, 73, 84, 50] d1 =
        some ([72, 105, 0, 65].takeWhile (fun b => b != 0)) ∧
      [72, 105, 0, 65].takeWhile (fun b => b != 0) ≠ [72, 105, 0, 65]) ∧
    (∃ d2, read_id3_tags "a.mp3".toList
        (mkTagFile 3 0 0 [([84, 73, 84, 50], [72, 105, 0, 66])] []) =
        .ok d2 ∧
      fieldOf [84, 73, 84, 50] d2 =
        some ([72, 105, 0, 65].takeWhile (fun b => b != 0))) :=
  C9_nul_truncation "a.mp3".toList 3 0 0 [84, 73, 84, 50]
    [72, 105, 0, 65] [72, 105, 0, 66] (by rfl) (by decide) (by decide)
    (by decide) (by decide) (by decide)

/-- C10: write never inspects the `ID3` magic — for every `.mp3` path and
every original of at least 10 bytes it succeeds, copying whatever the
first 10 bytes are as the header; and every write failure is either the
extension check or the short first-10-byte read (OS-level open, remove
and rename failures are outside the model). -/
theorem C10_write_ignores_magic :
    (∀ (filename : List Char) (d : TagData) (orig : List Nat),
      check_id3_tag_presence filename = true → 10 ≤ orig.length →
      ∃ out, write_id3_tags filename d orig = .ok out ∧
        out.take 10 = orig.take 10) ∧
    (∀ (filename : List Char) (d : TagData) (orig : List Nat) (e : WriteError),
      write_id3_tags filename d orig = .error e →
      (e = .NotAnMp3File ∧ check_id3_tag_presence filename = false) ∨
      (e = .TruncatedHeader ∧ orig.length < 10)) := by
  constructor
  · intro filename d orig hext hlen
    refine ⟨_, write_ok filename d orig hext hlen, ?_⟩
    simp only [List.append_assoc]
    exact take10_of_append orig _ hlen
  · intro filename d orig e h
    unfold write_id3_tags at h
    split_ifs at h with h1 h2
    · simp only [Except.error.injEq] at h
      exact Or.inl ⟨h.symm, h1⟩
    · simp only [Except.error.injEq] at h
      exact Or.inr ⟨h.symm, by omega⟩

/-- Concrete instance of C10 on a file with no ID3 tag at all. -/
theorem C10_witness :
    ∃ out, write_id3_tags "a.mp3".toList create_tag_data
        [0, 1, 2, 3, 4, 5, 6, 7, 8, 9] = .ok out ∧
      out.take 10 = [0, 1, 2, 3, 4, 5, 6, 7, 8, 9].take 10 :=
  C10_write_ignores_magic.1 "a.mp3".toList create_tag_data
    [0, 1, 2, 3, 4, 5, 6, 7, 8, 9] (by rfl) (by decide)

end MP3Tag
